import Mathlib

set_option maxHeartbeats 1000000

/-!
Shallow embedding of `internal/engine/parser/parser.go` from alphan/gmailctl.

The parser package itself (`Parse`, `parseRule`, `parseCriteria`, `checkSyntax`,
`parseOperation`, `parseFunction`, `allChildrenLeaves`) is translated from the
source.  The criteria AST (`CriteriaAST`, `Node`, `Leaf` with `RootOperation`,
`IsLeaf`, `Clone`), the configuration types (`FilterNode` with
`NonEmptyFields`, `Rule`, `Actions`, `Config`), the simplifier and the error
reporting helpers live outside the given source tree and are modelled from the
spec, as noted on each definition.

Go's runtime panics (out-of-bounds slice index, failed interface type
assertion) are modelled as distinguished error values, so that a panicking
execution is an `Except.error` carrying the corresponding panic message.
-/

inductive OperationType where
  | opNone
  | opAnd
  | opOr
  | opNot
deriving DecidableEq

inductive FunctionType where
  | fnNone
  | fnFrom
  | fnTo
  | fnCc
  | fnBcc
  | fnReplyTo
  | fnSubject
  | fnList
  | fnHas
  | fnQuery
deriving DecidableEq

/-- Modelled from the spec: the criteria tree is polymorphic over two variants,
a Node carrying an Operation and an ordered children sequence, and a Leaf
carrying a Function, a Grouping operation, an ordered Args sequence and an
IsRaw flag (spec section 3). -/
inductive CriteriaAST where
  | node (operation : OperationType) (children : List CriteriaAST)
  | leaf (function : FunctionType) (grouping : OperationType) (args : List String) (isRaw : Bool)

/-- Modelled from the spec: `RootOperation` of a Node is its Operation; for a
Leaf it is the leaf's synthetic Grouping marker — Pattern B (spec section 4.4)
checks `RootOperation(children[0]) = Or` on a Leaf and explains that "the
leaf's synthetic Grouping marks it as a disjunction over its own Args", which
is only meaningful when a leaf's root operation is its Grouping. -/
def CriteriaAST.rootOperation : CriteriaAST → OperationType
  | .node op _ => op
  | .leaf _ grouping _ _ => grouping

/-- Modelled from the spec: `IsLeaf` is true iff the tree is a Leaf variant. -/
def CriteriaAST.isLeaf : CriteriaAST → Bool
  | .node _ _ => false
  | .leaf _ _ _ _ => true

mutual

/-- Modelled from the spec: `Clone` is a deep structural copy. -/
def CriteriaAST.clone : CriteriaAST → CriteriaAST
  | .node op children => .node op (cloneList children)
  | .leaf fn grouping args isRaw => .leaf fn grouping args isRaw

def cloneList : List CriteriaAST → List CriteriaAST
  | [] => []
  | t :: ts => CriteriaAST.clone t :: cloneList ts

end

/-- Modelled from the spec: a specification-tree node (cfg.FilterNode) exposes
optional `and`/`or` child lists, an optional `not` child, nine optional string
predicate fields (from, to, cc, bcc, replyTo, subject, list, has, query) and
an `isEscaped` flag (spec section 3).  Field order in the constructor:
And, Or, Not, From, To, Cc, Bcc, ReplyTo, Subject, List, Has, Query,
IsEscaped. -/
inductive FilterNode where
  | mk : List FilterNode → List FilterNode → Option FilterNode →
      String → String → String → String → String → String →
      String → String → String → Bool → FilterNode

def FilterNode.And : FilterNode → List FilterNode
  | .mk ands _ _ _ _ _ _ _ _ _ _ _ _ => ands

def FilterNode.Or : FilterNode → List FilterNode
  | .mk _ ors _ _ _ _ _ _ _ _ _ _ _ => ors

def FilterNode.Not : FilterNode → Option FilterNode
  | .mk _ _ nots _ _ _ _ _ _ _ _ _ _ => nots

def FilterNode.From : FilterNode → String
  | .mk _ _ _ x _ _ _ _ _ _ _ _ _ => x

def FilterNode.To : FilterNode → String
  | .mk _ _ _ _ x _ _ _ _ _ _ _ _ => x

def FilterNode.Cc : FilterNode → String
  | .mk _ _ _ _ _ x _ _ _ _ _ _ _ => x

def FilterNode.Bcc : FilterNode → String
  | .mk _ _ _ _ _ _ x _ _ _ _ _ _ => x

def FilterNode.ReplyTo : FilterNode → String
  | .mk _ _ _ _ _ _ _ x _ _ _ _ _ => x

def FilterNode.Subject : FilterNode → String
  | .mk _ _ _ _ _ _ _ _ x _ _ _ _ => x

def FilterNode.List : FilterNode → String
  | .mk _ _ _ _ _ _ _ _ _ x _ _ _ => x

def FilterNode.Has : FilterNode → String
  | .mk _ _ _ _ _ _ _ _ _ _ x _ _ => x

def FilterNode.Query : FilterNode → String
  | .mk _ _ _ _ _ _ _ _ _ _ _ x _ => x

def FilterNode.IsEscaped : FilterNode → Bool
  | .mk _ _ _ _ _ _ _ _ _ _ _ _ e => e

/-- Alias for lists of field names; the `FilterNode.List` projection shadows
the `List` type inside declarations of the `FilterNode` namespace. -/
abbrev StringList : Type := List String

/-- Modelled from the spec: `NonEmptyFields` lists the names of the populated
fields of a specification node, in the documented fixed precedence order
(and, or, not, from, to, cc, bcc, replyTo, subject, list, has, query;
spec section 4.2). -/
def FilterNode.NonEmptyFields (f : FilterNode) : StringList :=
  (if f.And.length > 0 then ["and"] else []) ++
  (if f.Or.length > 0 then ["or"] else []) ++
  (if f.Not.isSome then ["not"] else []) ++
  (if f.From ≠ "" then ["from"] else []) ++
  (if f.To ≠ "" then ["to"] else []) ++
  (if f.Cc ≠ "" then ["cc"] else []) ++
  (if f.Bcc ≠ "" then ["bcc"] else []) ++
  (if f.ReplyTo ≠ "" then ["replyTo"] else []) ++
  (if f.Subject ≠ "" then ["subject"] else []) ++
  (if f.List ≠ "" then ["list"] else []) ++
  (if f.Has ≠ "" then ["has"] else []) ++
  (if f.Query ≠ "" then ["query"] else [])

/-- Modelled from the spec: the action set attached to a rule is opaque and
exposes only emptiness (`Empty() -> bool`); a tag keeps distinct action sets
distinguishable in the model. -/
structure Actions where
  Empty : Bool
  tag : Nat
deriving DecidableEq

/-- Modelled from the spec: an input specification rule exposes a Filter
(specification tree) and Actions. -/
structure CfgRule where
  Filter : FilterNode
  Actions : Actions

/-- Modelled from the spec: the input is an ordered sequence of specification
rules. -/
structure Config where
  Rules : List CfgRule

/-- Intermediate representation of a Gmail filter (parser.Rule). -/
structure Rule where
  Criteria : CriteriaAST
  Actions : Actions

/-- Modelled from the spec: errors surfaced by Parse carry a message and a
list of detail strings (errors.WithDetails attaches the rendered rule dump as
a detail). -/
structure DetailedError where
  msg : String
  details : List String
deriving DecidableEq

/-- Error value modelling the Go runtime panic raised by an out-of-bounds
slice index (`root.Children[0]` on an empty children slice). -/
def indexOutOfRange : String := "panic: runtime error: index out of range"

/-- Error value modelling the Go runtime panic raised by a failed interface
type assertion (`.(*Node)` applied to a `*Leaf`). -/
def interfaceConversion : String :=
  "panic: interface conversion: parser.CriteriaAST is *parser.Leaf, not *parser.Node"

def allowedRawFields : List String := ["from", "to", "subject"]

def checkSyntax (f : FilterNode) : Except String Unit :=
  let fs := f.NonEmptyFields
  if fs.length ≠ 1 then
    if fs.length = 0 then
      .error "empty filter node"
    else
      .error ("multiple fields specified in the same filter node: " ++ String.intercalate "," fs)
  else if !f.IsEscaped then
    .ok ()
  else if allowedRawFields.contains (fs.headD "") then
    .ok ()
  else
    .error ("isRaw can be used only with fields " ++ String.intercalate ", " allowedRawFields)

def parseOperation (f : FilterNode) : OperationType × List FilterNode :=
  if f.And.length > 0 then
    (.opAnd, f.And)
  else if f.Or.length > 0 then
    (.opOr, f.Or)
  else
    match f.Not with
    | some n => (.opNot, [n])
    | none => (.opNone, [])

def parseFunction (f : FilterNode) : FunctionType × String :=
  if f.From ≠ "" then (.fnFrom, f.From)
  else if f.To ≠ "" then (.fnTo, f.To)
  else if f.Cc ≠ "" then (.fnCc, f.Cc)
  else if f.Bcc ≠ "" then (.fnBcc, f.Bcc)
  else if f.ReplyTo ≠ "" then (.fnReplyTo, f.ReplyTo)
  else if f.Subject ≠ "" then (.fnSubject, f.Subject)
  else if f.List ≠ "" then (.fnList, f.List)
  else if f.Has ≠ "" then (.fnHas, f.Has)
  else if f.Query ≠ "" then (.fnQuery, f.Query)
  else (.fnNone, "")

mutual

/-- parseCriteria from the source.  The combinator dispatch of
`parseOperation` (and before or before not) is inlined on the destructured
node so the recursion is structural; the dispatch conditions and the
constructed trees are exactly the source's. -/
def parseCriteria : FilterNode → Except String CriteriaAST
  | f@(.mk ands ors nots _ _ _ _ _ _ _ _ _ _) =>
    match checkSyntax f with
    | .error e => .error e
    | .ok _ =>
      if ands.length > 0 then
        match parseCriteriaList ands with
        | .error e => .error e
        | .ok astchildren => .ok (.node .opAnd astchildren)
      else if ors.length > 0 then
        match parseCriteriaList ors with
        | .error e => .error e
        | .ok astchildren => .ok (.node .opOr astchildren)
      else
        match nots with
        | some n =>
          match parseCriteria n with
          | .error e => .error e
          | .ok astc => .ok (.node .opNot [astc])
        | none =>
          match parseFunction f with
          | (fn, arg) =>
            if fn ≠ FunctionType.fnNone then
              .ok (.leaf fn .opNone [arg] f.IsEscaped)
            else
              .error "empty filter node"

/-- Children of a combinator node are built recursively in original order,
propagating the first child error immediately (the source's `for` loop over
`children` with an early `return nil, err`). -/
def parseCriteriaList : List FilterNode → Except String (List CriteriaAST)
  | [] => .ok []
  | f :: rest =>
    match parseCriteria f with
    | .error e => .error e
    | .ok astc =>
      match parseCriteriaList rest with
      | .error e => .error e
      | .ok astchildren => .ok (astc :: astchildren)

end

/-- parseRule from the source: build the criteria, simplify it, then check
that the actions are non-empty.  The simplifier is an external collaborator
(spec section 6) and is passed as a parameter. -/
def parseRule (simplify : CriteriaAST → Except String CriteriaAST) (rule : CfgRule) :
    Except String Rule :=
  match parseCriteria rule.Filter with
  | .error e => .error ("parsing criteria: " ++ e)
  | .ok crit =>
    match simplify crit with
    | .error e => .error ("simplifying criteria: " ++ e)
    | .ok scrit =>
      if rule.Actions.Empty then
        .error "empty action"
      else
        .ok ⟨scrit, rule.Actions⟩

def allChildrenLeaves (tree : CriteriaAST) : Bool :=
  match tree with
  | .leaf _ _ _ _ => false
  | .node _ children => children.all fun child => child.isLeaf

/-- Clone of each remaining child in Pattern B's inner loop
(`rem_child.(*Node).Clone()`): every remaining child is asserted to be a
Node; a Leaf makes the type assertion panic.  The source clones inside the
per-argument loop; since Clone is pure, hoisting the clones out of that loop
is behavior-preserving (same panic on the first argument, same clones per
argument otherwise). -/
def cloneRemaining : List CriteriaAST → Except String (List CriteriaAST)
  | [] => .ok []
  | .node op children :: rest =>
    match cloneRemaining rest with
    | .error e => .error e
    | .ok cloned => .ok (CriteriaAST.clone (.node op children) :: cloned)
  | .leaf _ _ _ _ :: _ => .error interfaceConversion

/-- The rewrite-expansion body of Parse's loop (source lines 49-112) for one
already-compiled rule: the list of rules appended to `res` for it, or the
panic the Go code would raise.  A Leaf-rooted criteria passes through as a
singleton; a Node root reads `Children[0]` unconditionally (panic on an empty
children slice), then tries Pattern A, then Pattern B, and otherwise appends
nothing (the source's final `else` only prints). -/
def expandRule (r : Rule) : Except String (List Rule) :=
  match r.Criteria with
  | .leaf _ _ _ _ => .ok [r]
  | .node rootOp rootChildren =>
    match rootChildren with
    | [] => .error indexOutOfRange
    | c0 :: restChildren =>
      match c0, restChildren with
      | .node leftOp leftChildren, [c1] =>
        if allChildrenLeaves (.node leftOp leftChildren) && rootOp == .opAnd &&
            decide (1 < leftChildren.length) && leftOp == .opOr &&
            c1.rootOperation == .opNot then
          match c1 with
          | .node op1 ch1 =>
            .ok (leftChildren.map fun child =>
              ⟨.node .opAnd [child, CriteriaAST.clone (.node op1 ch1)], r.Actions⟩)
          | .leaf _ _ _ _ => .error interfaceConversion
        else
          .ok []
      | .node _ _, _ => .ok []
      | .leaf _ grouping args isRaw, _ =>
        if rootOp == .opAnd && grouping == .opOr && decide (1 < args.length) then
          match cloneRemaining restChildren with
          | .error e => .error e
          | .ok cloned =>
            .ok (args.map fun arg =>
              ⟨.node .opAnd (.leaf .fnList .opOr [arg] isRaw :: cloned), r.Actions⟩)
        else
          .ok []

/-- Parse's loop over `config.Rules` with the running index `i` and the
accumulated `res`.  A parseRule error is wrapped with the rule index and the
rendered rule dump (errors.WithDetails + Prettify, the latter an external
formatter passed as a parameter); a panic during expansion aborts with the
bare panic message. -/
def parseLoop (simplify : CriteriaAST → Except String CriteriaAST)
    (prettify : CfgRule → Bool → String) :
    Nat → List CfgRule → List Rule → Except DetailedError (List Rule)
  | _, [], res => .ok res
  | i, rule :: rest, res =>
    match parseRule simplify rule with
    | .error err =>
      .error ⟨"rule #" ++ toString i ++ ": " ++ err, ["Rule: " ++ prettify rule false]⟩
    | .ok r =>
      match expandRule r with
      | .error p => .error ⟨p, []⟩
      | .ok newRules => parseLoop simplify prettify (i + 1) rest (res ++ newRules)

/-- Parse from the source, parameterized by the external simplifier and the
external pretty-printer. -/
def Parse (simplify : CriteriaAST → Except String CriteriaAST)
    (prettify : CfgRule → Bool → String) (config : Config) :
    Except DetailedError (List Rule) :=
  parseLoop simplify prettify 0 config.Rules []

/-- Specification-side predicate (following the claim's wording): a single
specification node is in violation when it has zero populated fields, more
than one populated field, or isEscaped set while the single populated field
is not one of from, to, subject. -/
def nodeBad (f : FilterNode) : Bool :=
  f.NonEmptyFields.length != 1 ||
    (f.IsEscaped && !(allowedRawFields.contains (f.NonEmptyFields.headD "")))

mutual

/-- Specification-side predicate: some node of the specification tree (the
root or a node reachable through the and/or/not child fields) is in
violation. -/
def hasViolation : FilterNode → Bool
  | f@(.mk ands ors nots _ _ _ _ _ _ _ _ _ _) =>
    nodeBad f || hasViolationList ands || hasViolationList ors ||
      (match nots with
       | some n => hasViolation n
       | none => false)

def hasViolationList : List FilterNode → Bool
  | [] => false
  | f :: rest => hasViolation f || hasViolationList rest

end

/-! Concrete fixtures used by witnesses and counterexamples. -/

def emptyFilter : FilterNode := .mk [] [] none "" "" "" "" "" "" "" "" "" false

def mkFrom (s : String) : FilterNode := .mk [] [] none s "" "" "" "" "" "" "" "" false

def actsNE : Actions := ⟨false, 0⟩

def emptyActs : Actions := ⟨true, 0⟩

/-- Simplifier instance that returns a fixed tree; stands for the opaque
external Simplify collaborator when a specific simplified criteria is
needed. -/
def constSimplify (t : CriteriaAST) : CriteriaAST → Except String CriteriaAST := fun _ => .ok t

/-- Pretty-printer instance standing for the external Prettify formatter. -/
def prettify0 : CfgRule → Bool → String := fun _ _ => "rule"

/-- A plain two-leaf conjunction: a Node-rooted criteria matching neither
Pattern A nor Pattern B. -/
def critDrop : CriteriaAST :=
  .node .opAnd [.leaf .fnFrom .opNone ["a"] false, .leaf .fnTo .opNone ["b"] false]

/-- Pattern A preconditions hold except that children[1] is a Leaf whose
Grouping (hence root operation) is Not. -/
def critA_bad : CriteriaAST :=
  .node .opAnd [.node .opOr [.leaf .fnFrom .opNone ["a"] false, .leaf .fnFrom .opNone ["b"] false],
    .leaf .fnHas .opNot ["x"] false]

/-- Pattern B preconditions hold but the remaining child is a Leaf. -/
def critB_bad : CriteriaAST :=
  .node .opAnd [.leaf .fnList .opOr ["a", "b"] false, .leaf .fnHas .opNone ["x"] false]

/-- Simplified criteria exercising Pattern A with a proper Not Node. -/
def critA_fix : CriteriaAST :=
  .node .opAnd [.node .opOr [.leaf .fnFrom .opNone ["a"] false, .leaf .fnFrom .opNone ["b"] false],
    .node .opNot [.leaf .fnSubject .opNone ["x"] false]]

/-- Simplified criteria exercising Pattern B with a proper Node remainder. -/
def critB_fix : CriteriaAST :=
  .node .opAnd [.leaf .fnList .opOr ["a", "b"] true,
    .node .opNot [.leaf .fnSubject .opNone ["x"] false]]

/-- Batch whose first rule expands into an out-of-bounds panic and whose
second rule fails the action check. -/
def cfg9 : Config := ⟨[⟨mkFrom "a", actsNE⟩, ⟨mkFrom "b", emptyActs⟩]⟩

/-! Helper lemmas. -/

theorem cloneRemaining_ok (rest : List CriteriaAST) (h : ∀ c ∈ rest, c.isLeaf = false) :
    cloneRemaining rest = .ok (rest.map CriteriaAST.clone) := by
  induction rest with
  | nil => rfl
  | cons c rs ih =>
    cases c with
    | node op ch =>
      rw [cloneRemaining, ih (fun c hc => h c (List.mem_cons_of_mem _ hc))]
      simp [CriteriaAST.clone]
    | leaf fn g a r =>
      exact absurd (h _ (List.mem_cons_self _ _)) (by simp [CriteriaAST.isLeaf])

/-- Pattern B fires and returns normally whenever the multi-argument
Or-grouped leaf heads an And root and every remaining child is a Node. -/
theorem expandRule_patternB (fn : FunctionType) (args : List String) (isRaw : Bool)
    (rest : List CriteriaAST) (acts : Actions) (hargs : 1 < args.length)
    (hrest : ∀ c ∈ rest, c.isLeaf = false) :
    expandRule ⟨.node .opAnd (.leaf fn .opOr args isRaw :: rest), acts⟩ =
      .ok (args.map fun arg =>
        ⟨.node .opAnd (.leaf .fnList .opOr [arg] isRaw :: rest.map CriteriaAST.clone), acts⟩) := by
  unfold expandRule
  cases rest with
  | nil => simp [hargs, cloneRemaining]
  | cons c rs =>
    cases c with
    | node op ch => simp [hargs, cloneRemaining_ok _ hrest]
    | leaf f2 g2 a2 r2 =>
      exact absurd (hrest _ (List.mem_cons_self _ _)) (by simp [CriteriaAST.isLeaf])

/-- Pattern B's guard fails on at most one argument: the expansion appends
nothing but does not panic. -/
theorem expandRule_patternB_few (fn : FunctionType) (args : List String) (isRaw : Bool)
    (rest : List CriteriaAST) (acts : Actions) (hargs : ¬ 1 < args.length) :
    expandRule ⟨.node .opAnd (.leaf fn .opOr args isRaw :: rest), acts⟩ = .ok [] := by
  unfold expandRule
  cases rest with
  | nil => simp [hargs]
  | cons c rs =>
    cases c with
    | node op ch => simp [hargs]
    | leaf f2 g2 a2 r2 => simp [hargs]

theorem cloneRemaining_ne_oob (l : List CriteriaAST) :
    cloneRemaining l ≠ .error indexOutOfRange := by
  induction l with
  | nil => simp [cloneRemaining]
  | cons c rs ih =>
    cases c with
    | node op ch =>
      rw [cloneRemaining]
      intro h
      cases hrec : cloneRemaining rs with
      | error e => rw [hrec] at h; injection h with h2; exact ih (hrec.trans (by rw [h2]))
      | ok cloned => rw [hrec] at h; exact Except.noConfusion h
    | leaf fn g a r =>
      intro h
      rw [cloneRemaining] at h
      injection h with h2
      exact absurd h2 (by decide)

/-! Claim theorems. -/

/-- C1 (code_bug): the spec says a rule whose simplified criteria matches
neither pattern passes through unchanged as a singleton output, but the
source's final `else` branch (line 107) only prints a debug trace and appends
nothing, so a Node-rooted criteria matching neither pattern — here the plain
conjunction `And(from:a, to:b)` — is silently dropped: Parse returns zero
output rules instead of the claimed one pass-through rule. -/
theorem c1_passthrough_drop_bug :
    expandRule ⟨critDrop, actsNE⟩ = .ok [] ∧
    Parse (constSimplify critDrop) prettify0 ⟨[⟨mkFrom "a", actsNE⟩]⟩ = .ok [] :=
  ⟨rfl, rfl⟩

/-- C2 (counterexample): every precondition of the claim holds — the
simplified criteria is an And Node with exactly 2 children, children[0] is an
Or Node with two leaf children, and children[1] has root operation Not (it is
a Leaf whose Grouping is Not) — yet Parse does not emit one rule per child of
children[0]: the `root.Children[1].(*Node)` type assertion panics. -/
theorem c2_patternA_leafNot_cex :
    (CriteriaAST.leaf .fnHas .opNot ["x"] false).rootOperation = .opNot ∧
    Parse (constSimplify critA_bad) prettify0 ⟨[⟨mkFrom "a", actsNE⟩]⟩ =
      .error ⟨interfaceConversion, []⟩ :=
  ⟨rfl, rfl⟩

/-- C2 (amended): with children[1] required to be a Not Node (not merely to
have root operation Not), Pattern A fires: one output rule per child of
children[0], in original order, with criteria And(Ci, Clone(children[1])) and
the original rule's Actions. -/
theorem c2_patternA_expansion (simplify : CriteriaAST → Except String CriteriaAST)
    (prettify : CfgRule → Bool → String) (rule : CfgRule) (acts : Actions)
    (leftChildren notChildren : List CriteriaAST)
    (hparse : parseRule simplify rule =
      .ok ⟨.node .opAnd [.node .opOr leftChildren, .node .opNot notChildren], acts⟩)
    (hleaves : (leftChildren.all fun child => child.isLeaf) = true)
    (hlen : 1 < leftChildren.length) :
    Parse simplify prettify ⟨[rule]⟩ = .ok (leftChildren.map fun child =>
      ⟨.node .opAnd [child, CriteriaAST.clone (.node .opNot notChildren)], acts⟩) := by
  have hexp : expandRule ⟨.node .opAnd [.node .opOr leftChildren, .node .opNot notChildren], acts⟩
      = .ok (leftChildren.map fun child =>
        ⟨.node .opAnd [child, CriteriaAST.clone (.node .opNot notChildren)], acts⟩) := by
    unfold expandRule
    simp [allChildrenLeaves, CriteriaAST.rootOperation, hleaves, hlen]
  unfold Parse
  unfold parseLoop
  rw [hparse]
  simp only [hexp]
  simp [parseLoop]

/-- C3 (counterexample): the claim's preconditions hold — Pattern A's
precondition is false (children[0] is a Leaf), the criteria is an And Node,
children[0] is a Leaf with two arguments and root operation Or — yet Parse
does not emit one rule per argument: the remaining child is a Leaf and the
`rem_child.(*Node)` type assertion panics. -/
theorem c3_patternB_leaf_cex :
    (CriteriaAST.leaf .fnList .opOr ["a", "b"] false).rootOperation = .opOr ∧
    Parse (constSimplify critB_bad) prettify0 ⟨[⟨mkFrom "a", actsNE⟩]⟩ =
      .error ⟨interfaceConversion, []⟩ :=
  ⟨rfl, rfl⟩

/-- C3 (amended): with the additional precondition that every remaining child
of the And root is a Node, Pattern B fires: one output rule per argument of
the multi-argument Or-grouped leaf, in original order, each with criteria
And(L_a, Clone(children[1]), ...) where L_a is a fresh Leaf with Function =
List, Grouping = Or, Args = [a] and IsRaw copied from the original leaf, and
the original rule's Actions. -/
theorem c3_patternB_expansion (simplify : CriteriaAST → Except String CriteriaAST)
    (prettify : CfgRule → Bool → String) (rule : CfgRule) (acts : Actions)
    (fn : FunctionType) (args : List String) (isRaw : Bool) (rest : List CriteriaAST)
    (hparse : parseRule simplify rule =
      .ok ⟨.node .opAnd (.leaf fn .opOr args isRaw :: rest), acts⟩)
    (hargs : 1 < args.length)
    (hrest : ∀ c ∈ rest, c.isLeaf = false) :
    Parse simplify prettify ⟨[rule]⟩ = .ok (args.map fun arg =>
      ⟨.node .opAnd (.leaf .fnList .opOr [arg] isRaw :: rest.map CriteriaAST.clone), acts⟩) := by
  have hexp := expandRule_patternB fn args isRaw rest acts hargs hrest
  unfold Parse
  unfold parseLoop
  rw [hparse]
  simp only [hexp]
  simp [parseLoop]

/-- C4 (confirmed): in Pattern B, when every remaining child of the And root
is a Node, the per-child type assertion and Clone never fail and expansion
returns normally; and for a concrete input whose remaining child is a Leaf,
the assertion fails irrecoverably (modelled as the interface-conversion panic
error). -/
theorem c4_patternB_assertion (fn : FunctionType) (args : List String) (isRaw : Bool)
    (rest : List CriteriaAST) (acts : Actions)
    (hrest : ∀ c ∈ rest, c.isLeaf = false) :
    (∃ out, expandRule ⟨.node .opAnd (.leaf fn .opOr args isRaw :: rest), acts⟩ = .ok out) ∧
    expandRule ⟨critB_bad, actsNE⟩ = .error interfaceConversion := by
  refine ⟨?_, rfl⟩
  by_cases hargs : 1 < args.length
  · exact ⟨_, expandRule_patternB fn args isRaw rest acts hargs hrest⟩
  · exact ⟨[], expandRule_patternB_few fn args isRaw rest acts hargs⟩

/-- C4 witness. -/
theorem c4_patternB_assertion_witness :
    (∃ out, expandRule ⟨.node .opAnd (.leaf .fnList .opOr ["a", "b"] false ::
      [.node .opNot [.leaf .fnHas .opNone ["x"] false]]), actsNE⟩ = .ok out) ∧
    expandRule ⟨critB_bad, actsNE⟩ = .error interfaceConversion :=
  c4_patternB_assertion .fnList ["a", "b"] false
    [.node .opNot [.leaf .fnHas .opNone ["x"] false]] actsNE
    (by simp [CriteriaAST.isLeaf])

/-- C5 (counterexample): a rule whose Actions are empty and whose filter is
also invalid does not fail with the empty-action error: criteria building
runs first and its error takes precedence, so the check is not "always
applied". -/
theorem c5_empty_action_cex :
    (CfgRule.mk emptyFilter emptyActs).Actions.Empty = true ∧
    parseRule (constSimplify critDrop) ⟨emptyFilter, emptyActs⟩ =
      .error "parsing criteria: empty filter node" ∧
    ("parsing criteria: empty filter node" : String) ≠ "empty action" :=
  ⟨rfl, rfl, by decide⟩

/-- C5 (amended): for every input rule whose Actions are empty and whose
criteria builds and simplifies successfully, compilation fails with the
empty-action error; when building or simplifying fails, that earlier error is
returned instead. -/
theorem c5_empty_action (simplify : CriteriaAST → Except String CriteriaAST)
    (rule : CfgRule) (crit scrit : CriteriaAST)
    (h1 : parseCriteria rule.Filter = .ok crit) (h2 : simplify crit = .ok scrit)
    (h3 : rule.Actions.Empty = true) :
    parseRule simplify rule = .error "empty action" := by
  simp [parseRule, h1, h2, h3]

/-- C5 witness. -/
theorem c5_empty_action_witness :
    parseRule (constSimplify critDrop) ⟨mkFrom "a", emptyActs⟩ = .error "empty action" :=
  c5_empty_action (constSimplify critDrop) ⟨mkFrom "a", emptyActs⟩
    (.leaf .fnFrom .opNone ["a"] false) critDrop rfl rfl rfl


/-- C2 witness. -/
theorem c2_patternA_expansion_witness :
    Parse (constSimplify critA_fix) prettify0 ⟨[⟨mkFrom "a", actsNE⟩]⟩ =
      .ok ([CriteriaAST.leaf .fnFrom .opNone ["a"] false,
            CriteriaAST.leaf .fnFrom .opNone ["b"] false].map fun child =>
        ⟨.node .opAnd [child,
          CriteriaAST.clone (.node .opNot [.leaf .fnSubject .opNone ["x"] false])], actsNE⟩) :=
  c2_patternA_expansion (constSimplify critA_fix) prettify0 ⟨mkFrom "a", actsNE⟩ actsNE
    [.leaf .fnFrom .opNone ["a"] false, .leaf .fnFrom .opNone ["b"] false]
    [.leaf .fnSubject .opNone ["x"] false] rfl rfl (by decide)


/-- C3 witness. -/
theorem c3_patternB_expansion_witness :
    Parse (constSimplify critB_fix) prettify0 ⟨[⟨mkFrom "a", actsNE⟩]⟩ =
      .ok ((["a", "b"] : List String).map fun arg =>
        ⟨.node .opAnd (.leaf .fnList .opOr [arg] true ::
          [CriteriaAST.node .opNot [.leaf .fnSubject .opNone ["x"] false]].map CriteriaAST.clone),
          actsNE⟩) :=
  c3_patternB_expansion (constSimplify critB_fix) prettify0 ⟨mkFrom "a", actsNE⟩ actsNE
    .fnList ["a", "b"] true [.node .opNot [.leaf .fnSubject .opNone ["x"] false]]
    rfl (by decide) (by simp [CriteriaAST.isLeaf])

/-- Every successful run of the loop produces one contiguous block per input
rule, in input order, each block being that rule's expansion output. -/
theorem parseLoop_ok (simplify : CriteriaAST → Except String CriteriaAST)
    (prettify : CfgRule → Bool → String) :
    ∀ (rules : List CfgRule) (i : Nat) (res out : List Rule),
      parseLoop simplify prettify i rules res = .ok out →
      ∃ ls : List (List Rule),
        List.Forall₂ (fun rule l => ∃ r, parseRule simplify rule = .ok r ∧ expandRule r = .ok l)
          rules ls ∧ out = res ++ ls.flatten := by
  intro rules
  induction rules with
  | nil =>
    intro i res out h
    refine ⟨[], .nil, ?_⟩
    simp only [parseLoop] at h
    injection h with h
    simp [h]
  | cons rule rest ih =>
    intro i res out h
    simp only [parseLoop] at h
    cases hp : parseRule simplify rule with
    | error e => simp only [hp] at h; exact Except.noConfusion h
    | ok r =>
      simp only [hp] at h
      cases he : expandRule r with
      | error p => simp only [he] at h; exact Except.noConfusion h
      | ok newRules =>
        simp only [he] at h
        obtain ⟨ls, hall, hout⟩ := ih (i + 1) (res ++ newRules) out h
        exact ⟨newRules :: ls, .cons ⟨r, hp, he⟩ hall, by simp [hout]⟩

/-- C8 (confirmed): when Parse succeeds, its output is the concatenation of
one block per input rule, blocks in input-rule order, each block exactly the
expansion output of that rule in the expansion's own iteration order. -/
theorem c8_parse_ordering (simplify : CriteriaAST → Except String CriteriaAST)
    (prettify : CfgRule → Bool → String) (config : Config) (out : List Rule)
    (h : Parse simplify prettify config = .ok out) :
    ∃ ls : List (List Rule),
      List.Forall₂ (fun rule l => ∃ r, parseRule simplify rule = .ok r ∧ expandRule r = .ok l)
        config.Rules ls ∧ out = ls.flatten := by
  obtain ⟨ls, hall, hout⟩ := parseLoop_ok simplify prettify config.Rules 0 [] out h
  exact ⟨ls, hall, by simpa using hout⟩

/-- C8 witness. -/
theorem c8_parse_ordering_witness :
    ∃ ls : List (List Rule),
      List.Forall₂ (fun rule l =>
          ∃ r, parseRule (constSimplify critA_fix) rule = .ok r ∧ expandRule r = .ok l)
        (Config.mk [⟨mkFrom "a", actsNE⟩]).Rules ls ∧
      ([⟨.node .opAnd [.leaf .fnFrom .opNone ["a"] false,
          .node .opNot [.leaf .fnSubject .opNone ["x"] false]], actsNE⟩,
        ⟨.node .opAnd [.leaf .fnFrom .opNone ["b"] false,
          .node .opNot [.leaf .fnSubject .opNone ["x"] false]], actsNE⟩] : List Rule) = ls.flatten :=
  c8_parse_ordering (constSimplify critA_fix) prettify0 ⟨[⟨mkFrom "a", actsNE⟩]⟩ _ rfl

/-- When every rule before `bad` compiles and expands normally and `bad`
fails in parseRule, the loop aborts at `bad` with the wrapped, annotated
error. -/
theorem parseLoop_first_error (simplify : CriteriaAST → Except String CriteriaAST)
    (prettify : CfgRule → Bool → String) (bad : CfgRule) (post : List CfgRule) (e : String)
    (hbad : parseRule simplify bad = .error e) :
    ∀ (pre : List CfgRule) (i : Nat) (res : List Rule),
      (∀ r ∈ pre, ∃ rr l, parseRule simplify r = .ok rr ∧ expandRule rr = .ok l) →
      parseLoop simplify prettify i (pre ++ bad :: post) res =
        .error ⟨"rule #" ++ toString (i + pre.length) ++ ": " ++ e,
          ["Rule: " ++ prettify bad false]⟩ := by
  intro pre
  induction pre with
  | nil =>
    intro i res _
    simp only [List.nil_append, List.length_nil, Nat.add_zero, parseLoop, hbad]
  | cons r0 rest ih =>
    intro i res hpre
    obtain ⟨rr, l, hok, hexp⟩ := hpre r0 (List.mem_cons_self _ _)
    simp only [List.cons_append, parseLoop, hok, hexp]
    have harith : i + 1 + rest.length = i + (r0 :: rest).length := by
      simp [List.length_cons]; omega
    rw [← harith]
    exact ih (i + 1) (res ++ l) (fun r hr => hpre r (List.mem_cons_of_mem _ hr))

/-- C9 (amended): if some rule fails in Build, Simplify or the action check,
and every earlier rule both compiles and expands without panicking, then
Parse returns an error and no output, aborting at that first failing rule;
the surfaced error is annotated with the failing rule's 0-based index and a
rendered dump of that rule.  (Without the no-earlier-panic proviso the claim
fails: see the counterexample, where an earlier rule's expansion panic
pre-empts the annotated error.) -/
theorem c9_first_error (simplify : CriteriaAST → Except String CriteriaAST)
    (prettify : CfgRule → Bool → String) (config : Config) (pre : List CfgRule)
    (bad : CfgRule) (post : List CfgRule) (e : String)
    (hsplit : config.Rules = pre ++ bad :: post)
    (hpre : ∀ r ∈ pre, ∃ rr l, parseRule simplify r = .ok rr ∧ expandRule rr = .ok l)
    (hbad : parseRule simplify bad = .error e) :
    Parse simplify prettify config =
      .error ⟨"rule #" ++ toString pre.length ++ ": " ++ e,
        ["Rule: " ++ prettify bad false]⟩ := by
  unfold Parse
  rw [hsplit]
  have := parseLoop_first_error simplify prettify bad post e hbad pre 0 [] hpre
  simpa using this

/-- C9 witness. -/
theorem c9_first_error_witness :
    Parse (constSimplify critDrop) prettify0 ⟨[⟨emptyFilter, actsNE⟩]⟩ =
      .error ⟨"rule #" ++ toString (0 : Nat) ++ ": " ++ "parsing criteria: empty filter node",
        ["Rule: " ++ prettify0 ⟨emptyFilter, actsNE⟩ false]⟩ := by
  have h := c9_first_error (constSimplify critDrop) prettify0 ⟨[⟨emptyFilter, actsNE⟩]⟩
    [] ⟨emptyFilter, actsNE⟩ [] "parsing criteria: empty filter node" rfl
    (by intro r hr; exact absurd hr (List.not_mem_nil r)) rfl
  simpa using h


/-- C9 (counterexample): in `cfg9` the second rule fails the action check
(so the claim's hypothesis holds), yet the surfaced error is the first
rule's expansion panic, carrying neither a rule index nor a rendered rule
dump — not the annotated error the claim promises for the failing rule. -/
theorem c9_panic_precedence_cex :
    parseRule (constSimplify (.node .opAnd [])) ⟨mkFrom "b", emptyActs⟩ = .error "empty action" ∧
    Parse (constSimplify (.node .opAnd [])) prettify0 cfg9 = .error ⟨indexOutOfRange, []⟩ ∧
    DetailedError.mk indexOutOfRange [] ≠
      ⟨"rule #1: " ++ "empty action", ["Rule: " ++ prettify0 ⟨mkFrom "b", emptyActs⟩ false]⟩ :=
  ⟨rfl, rfl, by decide⟩

/-- C10 (confirmed): reading `Children[0]` of a Node-rooted simplified
criteria is in bounds whenever the Node has at least one child — expansion
never yields the out-of-bounds panic then — and for a concrete input whose
simplified criteria is a Node with zero children, the unguarded access hits
the out-of-bounds branch and Parse aborts with the panic error. -/
theorem c10_children0_access (r : Rule) (op : OperationType) (c : CriteriaAST)
    (cs : List CriteriaAST) (h : r.Criteria = .node op (c :: cs)) :
    expandRule r ≠ .error indexOutOfRange ∧
    Parse (constSimplify (.node .opAnd [])) prettify0 ⟨[⟨mkFrom "a", actsNE⟩]⟩ =
      .error ⟨indexOutOfRange, []⟩ := by
  refine ⟨?_, rfl⟩
  obtain ⟨crit, acts⟩ := r
  dsimp only at h
  subst h
  intro hcontra
  rcases c with ⟨leftOp, leftChildren⟩ | ⟨fn, grouping, args, isRaw⟩
  · rcases cs with _ | ⟨c1, rest⟩
    · simp [expandRule] at hcontra
    · rcases rest with _ | ⟨c2, rest2⟩
      · by_cases hcond : (allChildrenLeaves (.node leftOp leftChildren) && op == .opAnd &&
            decide (1 < leftChildren.length) && leftOp == .opOr &&
            c1.rootOperation == .opNot) = true
        · rcases c1 with ⟨op1, ch1⟩ | ⟨f1, g1, a1, r1⟩
          · simp [expandRule, hcond] at hcontra
          · simp only [expandRule, hcond, if_true] at hcontra
            injection hcontra with h2
            exact absurd h2 (by decide)
        · simp [expandRule, hcond] at hcontra
      · simp [expandRule] at hcontra
  · by_cases hcond : (op == .opAnd && grouping == .opOr && decide (1 < args.length)) = true
    · cases hclone : cloneRemaining cs with
      | error e =>
        simp only [expandRule, hcond, if_true, hclone] at hcontra
        injection hcontra with h2
        exact cloneRemaining_ne_oob cs (by rw [hclone, h2])
      | ok cloned => simp [expandRule, hcond, hclone] at hcontra
    · simp [expandRule, hcond] at hcontra

/-- C10 witness. -/
theorem c10_children0_access_witness :
    expandRule ⟨.node .opAnd [.leaf .fnFrom .opNone ["a"] false], actsNE⟩ ≠
      .error indexOutOfRange ∧
    Parse (constSimplify (.node .opAnd [])) prettify0 ⟨[⟨mkFrom "a", actsNE⟩]⟩ =
      .error ⟨indexOutOfRange, []⟩ :=
  c10_children0_access ⟨.node .opAnd [.leaf .fnFrom .opNone ["a"] false], actsNE⟩
    .opAnd (.leaf .fnFrom .opNone ["a"] false) [] rfl


theorem checkSyntax_ok_length (f : FilterNode) (u : Unit) (h : checkSyntax f = .ok u) :
    f.NonEmptyFields.length = 1 := by
  by_contra hne
  simp only [checkSyntax] at h
  rw [if_pos hne] at h
  by_cases h0 : f.NonEmptyFields.length = 0
  · rw [if_pos h0] at h; exact Except.noConfusion h
  · rw [if_neg h0] at h; exact Except.noConfusion h

theorem nodeBad_false_iff (f : FilterNode) : nodeBad f = false ↔ checkSyntax f = .ok () := by
  unfold nodeBad
  simp only [checkSyntax]
  by_cases h1 : f.NonEmptyFields.length = 1
  · rw [if_neg (not_not_intro h1)]
    by_cases h2 : f.IsEscaped = true
    · rw [if_neg (by simp [h2])]
      by_cases h3 : allowedRawFields.contains (f.NonEmptyFields.headD "") = true
      · rw [if_pos h3, h2, h3]
        simp [h1]
      · rw [if_neg h3]
        have h3f : allowedRawFields.contains (f.NonEmptyFields.headD "") = false := by
          revert h3; cases allowedRawFields.contains (f.NonEmptyFields.headD "") <;> simp
        rw [h2, h3f]
        simp [h1]
    · have h2f : f.IsEscaped = false := by
        revert h2; cases f.IsEscaped <;> simp
      rw [if_pos (by simp [h2f]), h2f]
      simp [h1]
  · rw [if_pos h1]
    by_cases h0 : f.NonEmptyFields.length = 0
    · rw [if_pos h0]; simp [bne_iff_ne, h1]
    · rw [if_neg h0]; simp [bne_iff_ne, h1]

theorem nef_one_and (f : FilterNode) (hlen : f.NonEmptyFields.length = 1)
    (hands : f.And.length > 0) : f.Or = [] ∧ f.Not = none := by
  unfold FilterNode.NonEmptyFields at hlen
  rw [if_pos hands] at hlen
  have hor : f.Or = [] := by
    by_contra hne
    have h2 : f.Or.length > 0 := List.length_pos.mpr hne
    rw [if_pos h2] at hlen
    simp only [List.length_append, List.length_singleton] at hlen
    omega
  refine ⟨hor, ?_⟩
  by_contra hne
  have h2 : f.Not.isSome = true := Option.ne_none_iff_isSome.mp hne
  rw [h2] at hlen
  simp only [if_true, List.length_append, List.length_singleton] at hlen
  omega

theorem nef_one_or (f : FilterNode) (hlen : f.NonEmptyFields.length = 1)
    (hors : f.Or.length > 0) : f.Not = none := by
  unfold FilterNode.NonEmptyFields at hlen
  rw [if_pos hors] at hlen
  by_contra hne
  have h2 : f.Not.isSome = true := Option.ne_none_iff_isSome.mp hne
  rw [h2] at hlen
  simp only [if_true, List.length_append, List.length_singleton] at hlen
  omega

theorem nef_nil_fnNone (f : FilterNode) (hand : f.And = []) (hor : f.Or = [])
    (hnot : f.Not = none) (hpf : (parseFunction f).1 = .fnNone) : f.NonEmptyFields = [] := by
  unfold parseFunction at hpf
  split_ifs at hpf with h1 h2 h3 h4 h5 h6 h7 h8 h9
  all_goals try simp at hpf
  have e1 : f.From = "" := not_not.mp h1
  have e2 : f.To = "" := not_not.mp h2
  have e3 : f.Cc = "" := not_not.mp h3
  have e4 : f.Bcc = "" := not_not.mp h4
  have e5 : f.ReplyTo = "" := not_not.mp h5
  have e6 : f.Subject = "" := not_not.mp h6
  have e7 : f.List = "" := not_not.mp h7
  have e8 : f.Has = "" := not_not.mp h8
  have e9 : f.Query = "" := not_not.mp h9
  unfold FilterNode.NonEmptyFields
  simp [hand, hor, hnot, e1, e2, e3, e4, e5, e6, e7, e8, e9]


theorem parseCriteria_mk (ands ors : List FilterNode) (nots : Option FilterNode)
    (s1 s2 s3 s4 s5 s6 s7 s8 s9 : String) (esc : Bool) :
    parseCriteria (.mk ands ors nots s1 s2 s3 s4 s5 s6 s7 s8 s9 esc) =
      match checkSyntax (.mk ands ors nots s1 s2 s3 s4 s5 s6 s7 s8 s9 esc) with
      | .error e => .error e
      | .ok _ =>
        if ands.length > 0 then
          match parseCriteriaList ands with
          | .error e => .error e
          | .ok astchildren => .ok (.node .opAnd astchildren)
        else if ors.length > 0 then
          match parseCriteriaList ors with
          | .error e => .error e
          | .ok astchildren => .ok (.node .opOr astchildren)
        else
          match nots with
          | some n =>
            match parseCriteria n with
            | .error e => .error e
            | .ok astc => .ok (.node .opNot [astc])
          | none =>
            if (parseFunction (.mk ands ors nots s1 s2 s3 s4 s5 s6 s7 s8 s9 esc)).1 ≠
                FunctionType.fnNone then
              .ok (.leaf (parseFunction (.mk ands ors nots s1 s2 s3 s4 s5 s6 s7 s8 s9 esc)).1
                .opNone [(parseFunction (.mk ands ors nots s1 s2 s3 s4 s5 s6 s7 s8 s9 esc)).2] esc)
            else
              .error "empty filter node" := by
  cases nots <;> simp only [parseCriteria, FilterNode.IsEscaped]

theorem hasViolation_mk (ands ors : List FilterNode) (nots : Option FilterNode)
    (s1 s2 s3 s4 s5 s6 s7 s8 s9 : String) (esc : Bool) :
    hasViolation (.mk ands ors nots s1 s2 s3 s4 s5 s6 s7 s8 s9 esc) =
      (nodeBad (.mk ands ors nots s1 s2 s3 s4 s5 s6 s7 s8 s9 esc) ||
        hasViolationList ands || hasViolationList ors ||
        (match nots with
         | some n => hasViolation n
         | none => false)) := by
  cases nots <;> simp only [hasViolation]

theorem parseCriteria_ok_iff_violation : ∀ f : FilterNode,
    (∃ t, parseCriteria f = .ok t) ↔ hasViolation f = false := by
  intro f
  refine parseCriteria.induct
    (fun f => (∃ t, parseCriteria f = .ok t) ↔ hasViolation f = false)
    (fun fs => (∃ ts, parseCriteriaList fs = .ok ts) ↔ hasViolationList fs = false)
    ?_ ?_ ?_ ?_ ?_ ?_ ?_ ?_ ?_ ?_ ?_ ?_ ?_ f
  · -- checkSyntax fails at this node
    intro ands ors nots s1 s2 s3 s4 s5 s6 s7 s8 s9 esc e hcs
    refine iff_of_false ?_ ?_
    · rintro ⟨t, ht⟩
      rw [parseCriteria_mk, hcs] at ht
      exact Except.noConfusion ht
    · intro hv
      rw [hasViolation_mk] at hv
      simp only [Bool.or_eq_false_iff] at hv
      obtain ⟨⟨⟨hnb, _⟩, _⟩, _⟩ := hv
      exact Except.noConfusion (((nodeBad_false_iff _).mp hnb).symm.trans hcs)
  · -- and-children fail
    intro ands ors nots s1 s2 s3 s4 s5 s6 s7 s8 s9 esc u hcs hands e hlist ih2
    refine iff_of_false ?_ ?_
    · rintro ⟨t, ht⟩
      rw [parseCriteria_mk] at ht
      simp only [hcs, if_pos hands, hlist] at ht
      exact Except.noConfusion ht
    · intro hv
      rw [hasViolation_mk] at hv
      simp only [Bool.or_eq_false_iff] at hv
      obtain ⟨⟨⟨_, hA⟩, _⟩, _⟩ := hv
      obtain ⟨ts, hts⟩ := ih2.mpr hA
      rw [hlist] at hts
      exact Except.noConfusion hts
  · -- and-children succeed
    intro ands ors nots s1 s2 s3 s4 s5 s6 s7 s8 s9 esc u hcs hands astchildren hlist ih2
    have hone := checkSyntax_ok_length _ u hcs
    obtain ⟨hor, hnot⟩ := nef_one_and (.mk ands ors nots s1 s2 s3 s4 s5 s6 s7 s8 s9 esc) hone hands
    have hors : ors = [] := hor
    have hnots : nots = none := hnot
    subst hors; subst hnots
    have hpc : parseCriteria (.mk ands [] none s1 s2 s3 s4 s5 s6 s7 s8 s9 esc) =
        .ok (.node .opAnd astchildren) := by
      rw [parseCriteria_mk]
      simp only [hcs, if_pos hands, hlist]
    refine iff_of_true ⟨_, hpc⟩ ?_
    rw [hasViolation_mk, (nodeBad_false_iff _).mpr hcs, ih2.mp ⟨_, hlist⟩]
    rfl
  · -- or-children fail
    intro ands ors nots s1 s2 s3 s4 s5 s6 s7 s8 s9 esc u hcs hnands hors e hlist ih2
    refine iff_of_false ?_ ?_
    · rintro ⟨t, ht⟩
      rw [parseCriteria_mk] at ht
      simp only [hcs, if_neg hnands, if_pos hors, hlist] at ht
      exact Except.noConfusion ht
    · intro hv
      rw [hasViolation_mk] at hv
      simp only [Bool.or_eq_false_iff] at hv
      obtain ⟨⟨⟨_, _⟩, hB⟩, _⟩ := hv
      obtain ⟨ts, hts⟩ := ih2.mpr hB
      rw [hlist] at hts
      exact Except.noConfusion hts
  · -- or-children succeed
    intro ands ors nots s1 s2 s3 s4 s5 s6 s7 s8 s9 esc u hcs hnands hors astchildren hlist ih2
    have hone := checkSyntax_ok_length _ u hcs
    have hnot := nef_one_or (.mk ands ors nots s1 s2 s3 s4 s5 s6 s7 s8 s9 esc) hone hors
    have hands0 : ands = [] := List.length_eq_zero.mp (by omega)
    have hnots : nots = none := hnot
    subst hands0; subst hnots
    have hpc : parseCriteria (.mk [] ors none s1 s2 s3 s4 s5 s6 s7 s8 s9 esc) =
        .ok (.node .opOr astchildren) := by
      rw [parseCriteria_mk]
      simp only [hcs, if_neg hnands, if_pos hors, hlist]
    refine iff_of_true ⟨_, hpc⟩ ?_
    rw [hasViolation_mk, (nodeBad_false_iff _).mpr hcs, ih2.mp ⟨_, hlist⟩]
    rfl
  · -- not-child fails
    intro ands ors s1 s2 s3 s4 s5 s6 s7 s8 s9 esc u hnands hnors n e hn hcs heq ih1
    have hands0 : ands = [] := List.length_eq_zero.mp (by omega)
    have hors0 : ors = [] := List.length_eq_zero.mp (by omega)
    subst hands0; subst hors0
    refine iff_of_false ?_ ?_
    · rintro ⟨t, ht⟩
      rw [parseCriteria_mk] at ht
      simp only [hcs, if_neg hnands, if_neg hnors, hn] at ht
      exact Except.noConfusion ht
    · intro hv
      rw [hasViolation_mk] at hv
      simp only [Bool.or_eq_false_iff] at hv
      obtain ⟨⟨⟨_, _⟩, _⟩, hC⟩ := hv
      obtain ⟨t, ht⟩ := ih1.mpr hC
      rw [hn] at ht
      exact Except.noConfusion ht
  · -- not-child succeeds
    intro ands ors s1 s2 s3 s4 s5 s6 s7 s8 s9 esc u hnands hnors n astc hn hcs heq ih1
    have hands0 : ands = [] := List.length_eq_zero.mp (by omega)
    have hors0 : ors = [] := List.length_eq_zero.mp (by omega)
    subst hands0; subst hors0
    have hpc : parseCriteria (.mk [] [] (some n) s1 s2 s3 s4 s5 s6 s7 s8 s9 esc) =
        .ok (.node .opNot [astc]) := by
      rw [parseCriteria_mk]
      simp only [hcs, if_neg hnands, if_neg hnors, hn]
    refine iff_of_true ⟨_, hpc⟩ ?_
    rw [hasViolation_mk, (nodeBad_false_iff _).mpr hcs]
    simp [ih1.mp ⟨_, hn⟩, hasViolationList]
  · -- leaf with a recognized predicate field
    intro ands ors s1 s2 s3 s4 s5 s6 s7 s8 s9 esc u hnands hnors fn arg hfn hcs heq hpf
    have hands0 : ands = [] := List.length_eq_zero.mp (by omega)
    have hors0 : ors = [] := List.length_eq_zero.mp (by omega)
    subst hands0; subst hors0
    have hpc : parseCriteria (.mk [] [] none s1 s2 s3 s4 s5 s6 s7 s8 s9 esc) =
        .ok (.leaf fn .opNone [arg] esc) := by
      rw [parseCriteria_mk]
      simp only [hcs, if_neg hnands, if_neg hnors, hpf]
      simp [hfn]
    refine iff_of_true ⟨_, hpc⟩ ?_
    rw [hasViolation_mk, (nodeBad_false_iff _).mpr hcs]
    rfl
  · -- leaf with no recognized field: unreachable when checkSyntax passed
    intro ands ors s1 s2 s3 s4 s5 s6 s7 s8 s9 esc u hnands hnors fn arg hfn hcs heq hpf
    have hands0 : ands = [] := List.length_eq_zero.mp (by omega)
    have hors0 : ors = [] := List.length_eq_zero.mp (by omega)
    subst hands0; subst hors0
    have hfn0 : fn = .fnNone := not_not.mp hfn
    have hnil := nef_nil_fnNone (.mk [] [] none s1 s2 s3 s4 s5 s6 s7 s8 s9 esc) rfl rfl rfl
      (by rw [hpf]; exact hfn0)
    have hone := checkSyntax_ok_length _ u hcs
    rw [hnil] at hone
    exact absurd hone (by simp)
  · -- empty child list
    exact iff_of_true ⟨[], rfl⟩ rfl
  · -- first child fails
    intro f0 rest e hf ih1
    refine iff_of_false ?_ ?_
    · rintro ⟨ts, hts⟩
      simp only [parseCriteriaList, hf] at hts
      exact Except.noConfusion hts
    · intro hv
      simp only [hasViolationList, Bool.or_eq_false_iff] at hv
      obtain ⟨t, ht⟩ := ih1.mpr hv.1
      rw [hf] at ht
      exact Except.noConfusion ht
  · -- first child succeeds, rest fails
    intro f0 rest astc hf e hlist ih1 ih2
    refine iff_of_false ?_ ?_
    · rintro ⟨ts, hts⟩
      simp only [parseCriteriaList, hf, hlist] at hts
      exact Except.noConfusion hts
    · intro hv
      simp only [hasViolationList, Bool.or_eq_false_iff] at hv
      obtain ⟨ts, hts⟩ := ih2.mpr hv.2
      rw [hlist] at hts
      exact Except.noConfusion hts
  · -- all children succeed
    intro f0 rest astc hf astchildren hlist ih1 ih2
    have hpc : parseCriteriaList (f0 :: rest) = .ok (astc :: astchildren) := by
      simp only [parseCriteriaList, hf, hlist]
    refine iff_of_true ⟨_, hpc⟩ ?_
    simp only [hasViolationList, Bool.or_eq_false_iff]
    exact ⟨ih1.mp ⟨_, hf⟩, ih2.mp ⟨_, hlist⟩⟩

/-- C6 (confirmed): Build fails iff some node of the specification tree is in
violation (zero populated fields, more than one, or isEscaped on a field
other than from/to/subject); at the offending node, zero fields yield the
empty-filter-node error, several fields yield the error listing the populated
field names joined by commas, an isEscaped violation yields the isRaw error,
and a single populated field with legal isEscaped passes the syntax check. -/
theorem c6_build_validation (f : FilterNode) :
    ((∃ t, parseCriteria f = .ok t) ↔ hasViolation f = false) ∧
    (f.NonEmptyFields = [] → checkSyntax f = .error "empty filter node") ∧
    (1 < f.NonEmptyFields.length →
      checkSyntax f = .error ("multiple fields specified in the same filter node: " ++
        String.intercalate "," f.NonEmptyFields)) ∧
    (f.NonEmptyFields.length = 1 → f.IsEscaped = true →
      allowedRawFields.contains (f.NonEmptyFields.headD "") = false →
      checkSyntax f = .error ("isRaw can be used only with fields " ++
        String.intercalate ", " allowedRawFields)) ∧
    (f.NonEmptyFields.length = 1 →
      (f.IsEscaped = true → allowedRawFields.contains (f.NonEmptyFields.headD "") = true) →
      checkSyntax f = .ok ()) := by
  refine ⟨parseCriteria_ok_iff_violation f, ?_, ?_, ?_, ?_⟩
  · intro h
    simp [checkSyntax, h]
  · intro h
    have hne : f.NonEmptyFields.length ≠ 1 := by omega
    have hnz : ¬ f.NonEmptyFields.length = 0 := by omega
    simp only [checkSyntax]
    rw [if_pos hne, if_neg hnz]
  · intro h1 h2 h3
    simp only [checkSyntax]
    rw [if_neg (not_not_intro h1), if_neg (by simp [h2]),
      if_neg (by simp only [h3]; exact Bool.false_ne_true)]
  · intro h1 h2
    simp only [checkSyntax]
    rw [if_neg (not_not_intro h1)]
    by_cases hesc : f.IsEscaped = true
    · rw [if_neg (by simp [hesc]), if_pos (h2 hesc)]
    · have hf : f.IsEscaped = false := by revert hesc; cases f.IsEscaped <;> simp
      rw [if_pos (by simp [hf])]

/-- C6 witness. -/
theorem c6_build_validation_witness :
    checkSyntax emptyFilter = .error "empty filter node" :=
  (c6_build_validation emptyFilter).2.1 rfl

/-- C7 (confirmed): on a recursively valid specification tree Build
succeeds; given a node that passes the syntax check, an and/or field yields a
Node with the corresponding Operation over the recursively built children, a
not field yields a Not Node over its single built child, and a predicate
field yields a Leaf with that Function, a singleton Args holding the field's
value, Grouping None and IsRaw copied from isEscaped; children are built in
original order, failing fast on the first child error. -/
theorem c7_build_shapes (f n f0 : FilterNode) (rest : List FilterNode) (e : String)
    (c : CriteriaAST) :
    (hasViolation f = false → ∃ t, parseCriteria f = .ok t) ∧
    (checkSyntax f = .ok () → f.And.length > 0 →
      parseCriteria f = (parseCriteriaList f.And).map fun cs => .node .opAnd cs) ∧
    (checkSyntax f = .ok () → f.And = [] → f.Or.length > 0 →
      parseCriteria f = (parseCriteriaList f.Or).map fun cs => .node .opOr cs) ∧
    (checkSyntax f = .ok () → f.And = [] → f.Or = [] → f.Not = some n →
      parseCriteria f = (parseCriteria n).map fun c0 => .node .opNot [c0]) ∧
    (checkSyntax f = .ok () → f.And = [] → f.Or = [] → f.Not = none →
      (parseFunction f).1 ≠ .fnNone →
      parseCriteria f =
        .ok (.leaf (parseFunction f).1 .opNone [(parseFunction f).2] f.IsEscaped)) ∧
    (parseCriteria f0 = .error e → parseCriteriaList (f0 :: rest) = .error e) ∧
    (parseCriteria f0 = .ok c →
      parseCriteriaList (f0 :: rest) = (parseCriteriaList rest).map fun cs => c :: cs) := by
  obtain ⟨ands, ors, nots, s1, s2, s3, s4, s5, s6, s7, s8, s9, esc⟩ := f
  refine ⟨fun hv => (parseCriteria_ok_iff_violation _).mpr hv, ?_, ?_, ?_, ?_, ?_, ?_⟩
  · intro hcs hands
    have hands2 : ands.length > 0 := hands
    rw [parseCriteria_mk]
    simp only [hcs, FilterNode.And]
    rw [if_pos hands2]
    cases hl : parseCriteriaList ands with
    | error e2 => rfl
    | ok cs => rfl
  · intro hcs hA hors
    simp only [FilterNode.And] at hA
    subst hA
    have hors2 : ors.length > 0 := hors
    rw [parseCriteria_mk]
    simp only [hcs, FilterNode.Or]
    rw [if_neg (by simp : ¬([] : List FilterNode).length > 0), if_pos hors2]
    cases hl : parseCriteriaList ors with
    | error e2 => rfl
    | ok cs => rfl
  · intro hcs hA hO hN
    simp only [FilterNode.And] at hA
    simp only [FilterNode.Or] at hO
    simp only [FilterNode.Not] at hN
    subst hA; subst hO; subst hN
    rw [parseCriteria_mk]
    simp only [hcs]
    rw [if_neg (by simp : ¬([] : List FilterNode).length > 0),
      if_neg (by simp : ¬([] : List FilterNode).length > 0)]
    cases hl : parseCriteria n with
    | error e2 => rfl
    | ok c0 => rfl
  · intro hcs hA hO hN hfn
    simp only [FilterNode.And] at hA
    simp only [FilterNode.Or] at hO
    simp only [FilterNode.Not] at hN
    subst hA; subst hO; subst hN
    rw [parseCriteria_mk]
    simp only [hcs]
    rw [if_neg (by simp : ¬([] : List FilterNode).length > 0),
      if_neg (by simp : ¬([] : List FilterNode).length > 0)]
    rw [if_pos hfn]
    simp only [FilterNode.IsEscaped]
  · intro h
    simp only [parseCriteriaList, h]
  · intro h
    simp only [parseCriteriaList, h]
    cases hl : parseCriteriaList rest with
    | error e2 => rfl
    | ok cs => rfl

/-- C7 witness. -/
theorem c7_build_shapes_witness :
    parseCriteria (mkFrom "a") = .ok (.leaf (parseFunction (mkFrom "a")).1 .opNone
      [(parseFunction (mkFrom "a")).2] (mkFrom "a").IsEscaped) :=
  (c7_build_shapes (mkFrom "a") emptyFilter emptyFilter [] ""
    (.leaf .fnFrom .opNone ["a"] false)).2.2.2.2.1 rfl rfl rfl rfl (by decide)
